import Mathlib

/-!
Shallow embedding of the yt-dlp-gui download core:
`src/core/queue_manager.py`, `src/core/ytdlp_wrapper.py`,
`src/core/downloader.py`.

Machine floats that only ever hold exactly representable decimal values
(progress percentages) are modelled as rationals; Python dictionaries
serialized to JSON are modelled as records whose field set mirrors the
dataclass field set.
-/

/-- `QueueItemStatus` enum from `queue_manager.py`. -/
inductive QueueItemStatus where
  | pending
  | waiting
  | downloading
  | processing
  | completed
  | failed
  | cancelled
  | paused
deriving DecidableEq, Repr

/-- The `.value` string of each enum member. -/
def QueueItemStatus.value : QueueItemStatus → String
  | .pending => "pending"
  | .waiting => "waiting"
  | .downloading => "downloading"
  | .processing => "processing"
  | .completed => "completed"
  | .failed => "failed"
  | .cancelled => "cancelled"
  | .paused => "paused"

/-- `QueueItemStatus(s)`: look a member up by its value string; Python raises
`ValueError` (here: `none`) when no member has that value. -/
def QueueItemStatus.ofValue : String → Option QueueItemStatus
  | "pending" => some .pending
  | "waiting" => some .waiting
  | "downloading" => some .downloading
  | "processing" => some .processing
  | "completed" => some .completed
  | "failed" => some .failed
  | "cancelled" => some .cancelled
  | "paused" => some .paused
  | _ => none

/-- The `QueueItem` dataclass.  `options` is an open JSON-serializable
mapping; it is modelled as an association list that serialization carries
through verbatim. -/
structure QueueItem where
  id : String
  url : String
  title : String
  thumbnail : String
  duration : Int
  status : QueueItemStatus
  progress : ℚ
  speed : String
  eta : String
  format_spec : String
  quality : String
  output_path : String
  output_file : String
  error_message : String
  added_time : String
  options : List (String × String)
deriving DecidableEq, Repr

/-- A record of the persisted queue file's array: the result of
`QueueItem.to_dict` (all dataclass fields, with `status` replaced by its
value string), which is what `json.dump` writes and `json.load` reads back. -/
structure ItemDict where
  id : String
  url : String
  title : String
  thumbnail : String
  duration : Int
  statusVal : String
  progress : ℚ
  speed : String
  eta : String
  format_spec : String
  quality : String
  output_path : String
  output_file : String
  error_message : String
  added_time : String
  options : List (String × String)
deriving DecidableEq, Repr

/-- `QueueItem.to_dict`: `asdict(self)` with `data['status'] = self.status.value`. -/
def QueueItem.to_dict (it : QueueItem) : ItemDict :=
  { id := it.id
    url := it.url
    title := it.title
    thumbnail := it.thumbnail
    duration := it.duration
    statusVal := it.status.value
    progress := it.progress
    speed := it.speed
    eta := it.eta
    format_spec := it.format_spec
    quality := it.quality
    output_path := it.output_path
    output_file := it.output_file
    error_message := it.error_message
    added_time := it.added_time
    options := it.options }

/-- `QueueItem.from_dict`: `data['status'] = QueueItemStatus(data.get('status', 'pending'))`
then `cls(**data)`; an unrecognized status string raises (here: `none`). -/
def QueueItem.from_dict (d : ItemDict) : Option QueueItem :=
  match QueueItemStatus.ofValue d.statusVal with
  | none => none
  | some st =>
    some
      { id := d.id
        url := d.url
        title := d.title
        thumbnail := d.thumbnail
        duration := d.duration
        status := st
        progress := d.progress
        speed := d.speed
        eta := d.eta
        format_spec := d.format_spec
        quality := d.quality
        output_path := d.output_path
        output_file := d.output_file
        error_message := d.error_message
        added_time := d.added_time
        options := d.options }

/-- The crash-recovery pass of `QueueManager._load_queue`: items found
`DOWNLOADING` or `PROCESSING` are reset to `PENDING` with progress `0.0`. -/
def resetInProgress (it : QueueItem) : QueueItem :=
  if it.status = QueueItemStatus.downloading ∨ it.status = QueueItemStatus.processing then
    { it with status := QueueItemStatus.pending, progress := 0 }
  else
    it

/-- The list comprehension `[QueueItem.from_dict(item) for item in data]`:
all items parse, or the first exception aborts the whole load. -/
def parseAll : List ItemDict → Option (List QueueItem)
  | [] => some []
  | d :: ds =>
    match QueueItem.from_dict d, parseAll ds with
    | some it, some its => some (it :: its)
    | _, _ => none

/-- `QueueManager._load_queue` on a parsed queue file: build the items with
`from_dict`, then reset in-progress items to pending; any exception while
building (unknown status string) leaves the queue empty. -/
def loadQueue (file : List ItemDict) : List QueueItem :=
  match parseAll file with
  | some items => items.map resetInProgress
  | none => []

/-- `QueueManager._save_queue`: serialize every item with `to_dict`, in order. -/
def saveQueue (q : List QueueItem) : List ItemDict :=
  q.map QueueItem.to_dict

/-- `QueueManager.get_item`: first item with the given id, if any. -/
def getItem (q : List QueueItem) (item_id : String) : Option QueueItem :=
  q.find? (fun it => it.id = item_id)

/-- `QueueManager.get_pending_items`: items with status `PENDING` or `WAITING`. -/
def getPendingItems (q : List QueueItem) : List QueueItem :=
  q.filter (fun it =>
    it.status = QueueItemStatus.pending ∨ it.status = QueueItemStatus.waiting)

/-- `QueueManager.get_next_pending`: first item with status `PENDING`, or none. -/
def getNextPending (q : List QueueItem) : Option QueueItem :=
  q.find? (fun it => it.status = QueueItemStatus.pending)

/-- `QueueManager.update_item` restricted to the fields the downloader sets:
apply `f` to the first item whose id matches (Python's `get_item` returns the
first match and the kwargs are set on it alone); no-op when the id is absent. -/
def updateFirst (q : List QueueItem) (item_id : String) (f : QueueItem → QueueItem) :
    List QueueItem :=
  match q with
  | [] => []
  | it :: rest =>
    if it.id = item_id then f it :: rest
    else it :: updateFirst rest item_id f

/-! ## Progress parsing (`ytdlp_wrapper.py`)

`_parse_progress_line` is a first-match-wins chain of `re.search` calls
plus substring tests.  The three regexes used there are built from
complementary character classes (`\s` / `\S` / `\d`) separated by
literals, so a greedy left-to-right matcher is equivalent to Python's
backtracking search; `re.search` itself is the leftmost starting position
at which the pattern matches. -/

/-- Python `\s` on the ASCII lines at hand. -/
def isWSChar (c : Char) : Bool :=
  c == ' ' || c == '\t' || c == '\n' || c == '\r' || c == '\x0b' || c == '\x0c'

/-- Does `pat` start the char list `s`? -/
def startsWithL : List Char → List Char → Bool
  | [], _ => true
  | _ :: _, [] => false
  | p :: ps, c :: cs => p == c && startsWithL ps cs

/-- Consume the literal `pat` or fail. -/
def eatLit (pat s : List Char) : Option (List Char) :=
  if startsWithL pat s then some (s.drop pat.length) else none

/-- Consume one or more chars satisfying `p` (greedy), or fail. -/
def eatPlus (p : Char → Bool) (s : List Char) : Option (List Char × List Char) :=
  let a := s.takeWhile p
  if a.isEmpty then none else some (a, s.dropWhile p)

/-- `re.search`: try the pattern matcher at every starting position, leftmost
match wins. -/
def searchAux {α : Type} (f : List Char → Option α) : List Char → Option α
  | [] => f []
  | c :: rest =>
    match f (c :: rest) with
    | some r => some r
    | none => searchAux f rest

/-- One element of a regex pattern, restricted to the constructs the three
progress regexes use.  `num` is the capturing `(\d+\.?\d*)`, `tok` the
capturing `(\S+)`, `rest` the capturing `(.+)`, `tilde` the optional `~?`,
`ws` is `\s+`. -/
inductive PatElem where
  | lit (cs : List Char)
  | ws
  | num
  | tok
  | tilde
  | rest
deriving DecidableEq, Repr

/-- Match one pattern element at the current position, returning the captures
it produces (greedily; the character classes of adjacent elements are
complementary in the patterns used, so greedy matching coincides with
Python's backtracking search). -/
def stepPat : PatElem → List Char → Option (List (List Char) × List Char)
  | .lit cs, s => (eatLit cs s).map (fun r => ([], r))
  | .ws, s => (eatPlus isWSChar s).map (fun r => ([], r.2))
  | .num, s =>
    match eatPlus Char.isDigit s with
    | none => none
    | some (d1, s) =>
      match s with
      | '.' :: r => some ([d1 ++ '.' :: r.takeWhile Char.isDigit], r.dropWhile Char.isDigit)
      | _ => some ([d1], s)
  | .tok, s => (eatPlus (fun c => !isWSChar c) s).map (fun r => ([r.1], r.2))
  | .tilde, s => some ([], match s with | '~' :: r => r | _ => s)
  | .rest, s => (eatPlus (fun c => !(c == '\n')) s).map (fun r => ([r.1], r.2))

/-- Match a whole pattern at the current position, collecting captures in
order. -/
def runPat : List PatElem → List Char → Option (List (List Char))
  | [], _ => some []
  | p :: ps, s =>
    match stepPat p s with
    | none => none
    | some (caps, s') =>
      match runPat ps s' with
      | none => none
      | some caps' => some (caps ++ caps')

/-- `\[download\]\s+(\d+\.?\d*)%\s+of\s+~?(\S+)\s+at\s+(\S+)\s+ETA\s+(\S+)`. -/
def dl1Pat : List PatElem :=
  [.lit "[download]".toList, .ws, .num, .lit ['%'], .ws, .lit "of".toList, .ws,
   .tilde, .tok, .ws, .lit "at".toList, .ws, .tok, .ws, .lit "ETA".toList, .ws, .tok]

/-- `\[download\]\s+Destination:\s+(.+)` (`.` excludes newlines). -/
def destPat : List PatElem :=
  [.lit "[download]".toList, .ws, .lit "Destination:".toList, .ws, .rest]

/-- `\[download\]\s+100%\s+of\s+(\S+)`. -/
def completePat : List PatElem :=
  [.lit "[download]".toList, .ws, .lit "100%".toList, .ws, .lit "of".toList, .ws, .tok]

/-- Matcher for the first download-progress regex anchored at the current
position; yields the four capture groups. -/
def matchDl1At (s : List Char) : Option (List Char × List Char × List Char × List Char) :=
  match runPat dl1Pat s with
  | some [pct, total, speed, eta] => some (pct, total, speed, eta)
  | _ => none

/-- Matcher for the `Destination:` regex anchored at the current position. -/
def matchDestAt (s : List Char) : Option (List Char) :=
  match runPat destPat s with
  | some [fn] => some fn
  | _ => none

/-- Matcher for the `100% of` regex anchored at the current position. -/
def matchCompleteAt (s : List Char) : Option (List Char) :=
  match runPat completePat s with
  | some [total] => some total
  | _ => none

/-- Python `needle in haystack` substring test. -/
def hasSub (needle : List Char) : List Char → Bool
  | [] => needle.isEmpty
  | c :: rest => startsWithL needle (c :: rest) || hasSub needle rest

/-- Python `str.replace(needle, repl)`: left-to-right, non-overlapping, all
occurrences.  Structural recursion on a fuel argument that the wrapper
instantiates with the list length (each step consumes at least one char). -/
def replaceAllAux (needle repl : List Char) : Nat → List Char → List Char
  | 0, s => s
  | _ + 1, [] => []
  | fuel + 1, c :: rest =>
    if needle ≠ [] ∧ startsWithL needle (c :: rest) = true then
      repl ++ replaceAllAux needle repl fuel (rest.drop (needle.length - 1))
    else
      c :: replaceAllAux needle repl fuel rest

/-- Python `str.replace(needle, repl)`. -/
def replaceAllL (needle repl s : List Char) : List Char :=
  replaceAllAux needle repl s.length s

/-- Python `str.strip()`. -/
def stripL (s : List Char) : List Char :=
  ((s.dropWhile isWSChar).reverse.dropWhile isWSChar).reverse

/-- Python `str.strip()` on strings. -/
def pyStrip (s : String) : String := String.mk (stripL s.toList)

/-- Python `str.lower()` (ASCII). -/
def pyLower (s : String) : String := String.mk (s.toList.map Char.toLower)

/-- Python `float()` on a decimal numeral `\d+\.?\d*`. -/
def digitsToNat (l : List Char) : Nat :=
  l.foldl (fun n c => n * 10 + (c.toNat - '0'.toNat)) 0

/-- Integer part, fractional part and fractional length of a captured
`\d+\.?\d*` group. -/
def decSplit (l : List Char) : Nat × Nat × Nat :=
  (digitsToNat (l.takeWhile (fun c => !(c == '.'))),
   digitsToNat ((l.dropWhile (fun c => !(c == '.'))).drop 1),
   ((l.dropWhile (fun c => !(c == '.'))).drop 1).length)

/-- Numeric value of a captured `\d+\.?\d*` group. -/
def parseFloatDec (l : List Char) : ℚ :=
  ((decSplit l).1 : ℚ) + ((decSplit l).2.1 : ℚ) / ((10 : ℚ) ^ (decSplit l).2.2)

/-- The `DownloadProgress` dataclass. -/
structure DownloadProgress where
  status : String := "waiting"
  percent : ℚ := 0
  speed : String := ""
  eta : String := ""
  downloaded : String := ""
  total : String := ""
  filename : String := ""
  error_message : String := ""
deriving DecidableEq, Repr

/-- `YTDLPWrapper._parse_progress_line`: the ordered first-match-wins rule
chain updating the accumulator. -/
def parseProgressLine (line : String) (progress : DownloadProgress) : DownloadProgress :=
  let l := line.toList
  match searchAux matchDl1At l with
  | some (pct, total, speed, eta) =>
    { progress with
        percent := parseFloatDec pct
        total := String.mk total
        speed := String.mk speed
        eta := String.mk eta
        status := "downloading" }
  | none =>
    match searchAux matchDestAt l with
    | some fn => { progress with filename := String.mk fn }
    | none =>
      match searchAux matchCompleteAt l with
      | some total =>
        { progress with percent := 100, total := String.mk total, status := "processing" }
      | none =>
        if hasSub "[Merger]".toList l || hasSub "[ExtractAudio]".toList l then
          { progress with status := "processing" }
        else if hasSub "ERROR:".toList l then
          { progress with
              status := "error"
              error_message := String.mk (stripL (replaceAllL "ERROR:".toList [] l)) }
        else
          progress

/-- The error-buffer test in the read loop of `YTDLPWrapper.download`:
`'ERROR:' in line or 'error:' in line.lower()`. -/
def isErrorLine (line : String) : Bool :=
  hasSub "ERROR:".toList line.toList || hasSub "error:".toList (pyLower line).toList

/-- One iteration of the read loop of `YTDLPWrapper.download` (cancellation
not requested): strip the raw line, skip it when empty, buffer it when it
carries an error marker, and feed it to the progress parser. -/
def processLinesStep (acc : List String × DownloadProgress) (raw : String) :
    List String × DownloadProgress :=
  let line := pyStrip raw
  if line = "" then acc
  else
    let buf := if isErrorLine line then acc.1 ++ [line] else acc.1
    (buf, parseProgressLine line acc.2)

/-- The whole read loop: the initial accumulator is
`DownloadProgress(status="downloading")` and the error buffer starts empty. -/
def processLines (lines : List String) : List String × DownloadProgress :=
  lines.foldl processLinesStep ([], { status := "downloading" })

/-- The failure message built after a nonzero exit:
`"\n".join(error_lines[-3:])` when any error lines were buffered, else the
generic exit-code message. -/
def failureMessage (error_lines : List String) (returncode : Int) : String :=
  if error_lines ≠ [] then
    String.intercalate "\n" (error_lines.drop (error_lines.length - 3))
  else
    "Download failed with exit code " ++ toString returncode

/-- Exit handling of `YTDLPWrapper.download` after the read loop ran to
completion: the `finished` signal's `(success, message)` payload. -/
def runExit (lines : List String) (returncode : Int) (output_path : String) :
    Bool × String :=
  let buf := (processLines lines).1
  if returncode = 0 then (true, output_path)
  else (false, failureMessage buf returncode)

/-! ## Orchestrator (`downloader.py`)

`DownloadManager` holds the queue manager, a map of active workers keyed by
item id, a running flag and the concurrency limit.  The worker map is
modelled by its key list (`_workers` is a dict, so keys are unique; entries
are added only under a `not in` guard).  Worker callbacks (`_on_progress`,
`_on_finished`) are modelled as atomic transitions. -/

structure MState where
  queue : List QueueItem
  workers : List String
  isRunning : Bool
  maxConcurrent : Nat
deriving DecidableEq, Repr

/-- `DownloadManager._start_download`: no-op when a worker for the id is
already registered; otherwise set the item's status to `DOWNLOADING` and
register the worker. -/
def startDownload (s : MState) (item : QueueItem) : MState :=
  if s.workers.contains item.id then s
  else
    { s with
        queue := updateFirst s.queue item.id
          (fun it => { it with status := QueueItemStatus.downloading }),
        workers := s.workers ++ [item.id] }

/-- The `while self.active_count < self._max_concurrent` admission loop of
`DownloadManager._process_queue`.  Each pass starts the next `PENDING` item;
the fuel argument is instantiated with the queue length, which bounds the
number of pending items. -/
def processLoop : Nat → MState → MState
  | 0, s => s
  | fuel + 1, s =>
    if s.workers.length < s.maxConcurrent then
      match getNextPending s.queue with
      | none => s
      | some item => processLoop fuel (startDownload s item)
    else s

/-- `DownloadManager._process_queue`: nothing happens unless running; after
the admission loop, when no worker is active and no pending/waiting item
remains, the manager stops and reports all-finished. -/
def processQueue (s : MState) : MState :=
  if s.isRunning = false then s
  else
    let s' := processLoop s.queue.length s
    if s'.workers.length = 0 ∧ getPendingItems s'.queue = [] then
      { s' with isRunning := false }
    else s'

/-- `DownloadManager.start_queue`. -/
def startQueue (s : MState) : MState :=
  if s.isRunning then s
  else processQueue { s with isRunning := true }

/-- `DownloadManager.stop_queue` (does not touch active downloads). -/
def stopQueue (s : MState) : MState :=
  { s with isRunning := false }

/-- `DownloadManager.pause_all`: requests cancellation on every worker (a
flag on the wrappers, not visible in this state) and clears the running
flag; workers stay registered until their `finished` callback runs. -/
def pauseAll (s : MState) : MState :=
  { s with isRunning := false }

/-- `DownloadManager._on_progress`: map the progress status onto the queue
item (`"processing"` ↦ `PROCESSING`, anything else ↦ `DOWNLOADING`) and copy
percent/speed/eta. -/
def onProgress (s : MState) (item_id : String) (p : DownloadProgress) : MState :=
  let st := if p.status = "processing" then QueueItemStatus.processing
            else QueueItemStatus.downloading
  { s with
      queue := updateFirst s.queue item_id
        (fun it =>
          { it with
              status := st
              progress := p.percent
              speed := p.speed
              eta := p.eta }) }

/-- `DownloadManager._on_finished`: drop the worker, write the terminal
status (`COMPLETED` with progress 100 and the output file on success,
`FAILED` with the error message otherwise), then admit more work. -/
def onFinished (s : MState) (item_id : String) (success : Bool) (message : String) :
    MState :=
  let s1 : MState := { s with workers := s.workers.filter (fun w => w != item_id) }
  let s2 : MState :=
    if success then
      { s1 with
          queue := updateFirst s1.queue item_id
            (fun it =>
              { it with
                  status := QueueItemStatus.completed
                  progress := 100
                  output_file := message }) }
    else
      { s1 with
          queue := updateFirst s1.queue item_id
            (fun it =>
              { it with
                  status := QueueItemStatus.failed
                  error_message := message }) }
  processQueue s2

/-- `DownloadManager.download_single`: starts immediately, bypassing the
admission loop and its concurrency check. -/
def downloadSingle (s : MState) (item : QueueItem) : MState :=
  startDownload s item

/-- `DownloadManager.cancel_download`: only acts when a worker for the id
exists; requests cancellation and sets the item's status to `CANCELLED`
(the worker stays registered until its `finished` callback runs). -/
def cancelDownload (s : MState) (item_id : String) : MState :=
  if s.workers.contains item_id then
    { s with
        queue := updateFirst s.queue item_id
          (fun it => { it with status := QueueItemStatus.cancelled }) }
  else s

/-- `DownloadManager.retry_failed`: only when the item exists with status
`FAILED`; reset it to `PENDING` with progress 0 and, when running, re-run
the admission loop. -/
def retryFailed (s : MState) (item_id : String) : MState :=
  match getItem s.queue item_id with
  | some it =>
    if it.status = QueueItemStatus.failed then
      let s' : MState :=
        { s with
            queue := updateFirst s.queue item_id
              (fun x => { x with status := QueueItemStatus.pending, progress := 0 }) }
      if s'.isRunning then processQueue s' else s'
    else s
  | none => s

/-- `QueueManager.add_item` lifted to the manager state. -/
def addItem (s : MState) (item : QueueItem) : MState :=
  { s with queue := s.queue ++ [item] }

/-- `QueueManager.remove_item` lifted to the manager state. -/
def removeItem (s : MState) (item_id : String) : MState :=
  { s with queue := s.queue.filter (fun it => it.id != item_id) }

/-- `QueueManager.clear_completed` lifted to the manager state. -/
def clearCompleted (s : MState) : MState :=
  { s with queue := s.queue.filter (fun it => it.status != QueueItemStatus.completed) }

/-- `QueueManager.clear_all` lifted to the manager state. -/
def clearAll (s : MState) : MState :=
  { s with queue := [] }

/-- `QueueManager.move_item` on the item list: clamp the target index and
reinsert. -/
def moveItemQ (q : List QueueItem) (item_id : String) (direction : Int) : List QueueItem :=
  match q.findIdx? (fun it => it.id == item_id) with
  | none => q
  | some i =>
    let newIndex := (max 0 (min ((q.length : Int) - 1) ((i : Int) + direction))).toNat
    if newIndex = i then q
    else
      match q[i]? with
      | some it => (q.eraseIdx i).insertIdx newIndex it
      | none => q

/-- `QueueManager.move_item` lifted to the manager state. -/
def moveItem (s : MState) (item_id : String) (direction : Int) : MState :=
  { s with queue := moveItemQ s.queue item_id direction }

/-- The orchestrator's operations, `download_single` excluded.  Worker
callbacks carry the precondition that the worker is registered; producers
add fresh `PENDING` items (ids are freshly generated UUIDs). -/
inductive Step : MState → MState → Prop
  | start (s : MState) : Step s (startQueue s)
  | stop (s : MState) : Step s (stopQueue s)
  | pause (s : MState) : Step s (pauseAll s)
  | progress (s : MState) (item_id : String) (p : DownloadProgress)
      (h : item_id ∈ s.workers) : Step s (onProgress s item_id p)
  | finished (s : MState) (item_id : String) (success : Bool) (message : String)
      (h : item_id ∈ s.workers) : Step s (onFinished s item_id success message)
  | cancel (s : MState) (item_id : String) : Step s (cancelDownload s item_id)
  | retry (s : MState) (item_id : String) : Step s (retryFailed s item_id)
  | add (s : MState) (item : QueueItem) (hst : item.status = QueueItemStatus.pending)
      (hfresh : ∀ it ∈ s.queue, it.id ≠ item.id) : Step s (addItem s item)
  | remove (s : MState) (item_id : String) : Step s (removeItem s item_id)
  | clearDone (s : MState) : Step s (clearCompleted s)
  | clearEverything (s : MState) : Step s (clearAll s)
  | move (s : MState) (item_id : String) (d : Int) : Step s (moveItem s item_id d)

/-- States reachable from a freshly constructed manager: the queue was just
loaded (crash recovery leaves no `DOWNLOADING`/`PROCESSING` item), ids are
unique (§3 invariant), no worker is registered and the manager is stopped. -/
inductive Reachable : MState → Prop
  | init (maxConcurrent : Nat) (q0 : List QueueItem)
      (hload : ∀ it ∈ q0, it.status ≠ QueueItemStatus.downloading ∧
                          it.status ≠ QueueItemStatus.processing)
      (hids : (q0.map QueueItem.id).Nodup) :
      Reachable ⟨q0, [], false, maxConcurrent⟩
  | step {s s' : MState} : Reachable s → Step s s' → Reachable s'

example : QueueItemStatus.ofValue (QueueItemStatus.value .paused) = some .paused := by decide

example :
    searchAux matchDl1At "[download]  45.5% of ~125.32MiB at 2.35MiB/s ETA 00:25".toList =
      some ("45.5".toList, "125.32MiB".toList, "2.35MiB/s".toList, "00:25".toList) := by
  decide

example :
    (parseProgressLine "[download] 100% of 125.32MiB in 00:53" { status := "downloading" }).status =
      "processing" := by decide

example :
    (parseProgressLine "ERROR: unable to extract video data" {}).error_message =
      "unable to extract video data" := by decide

example : decSplit "45.5".toList = (45, 5, 1) := by decide

/-! ## Persistence lemmas and claims C1, C2 -/

lemma status_ofValue_value (st : QueueItemStatus) :
    QueueItemStatus.ofValue st.value = some st := by
  cases st <;> rfl

lemma from_dict_to_dict (it : QueueItem) :
    QueueItem.from_dict it.to_dict = some it := by
  cases it
  simp [QueueItem.to_dict, QueueItem.from_dict, status_ofValue_value]

lemma parseAll_saveQueue (q : List QueueItem) :
    parseAll (saveQueue q) = some q := by
  induction q with
  | nil => rfl
  | cons it rest ih =>
    simp [saveQueue, parseAll, from_dict_to_dict] at ih ⊢
    rw [ih]

/-- Sample items shared by the concrete witnesses below. -/
def sampleDl : QueueItem :=
  { id := "a", url := "u", title := "t", thumbnail := "", duration := 3,
    status := QueueItemStatus.downloading, progress := 55, speed := "1MiB/s",
    eta := "00:10", format_spec := "best", quality := "best", output_path := "p",
    output_file := "", error_message := "", added_time := "now", options := [] }

/-- A completed sample item. -/
def sampleDone : QueueItem :=
  { id := "b", url := "v", title := "s", thumbnail := "", duration := 4,
    status := QueueItemStatus.completed, progress := 100, speed := "",
    eta := "", format_spec := "best", quality := "best", output_path := "p",
    output_file := "f", error_message := "", added_time := "then", options := [] }

/-- A failed sample item. -/
def sampleFailed : QueueItem :=
  { id := "c", url := "w", title := "r", thumbnail := "th", duration := 5,
    status := QueueItemStatus.failed, progress := 40, speed := "sp",
    eta := "e", format_spec := "fs", quality := "q", output_path := "p",
    output_file := "", error_message := "boom", added_time := "now",
    options := [("rate_limit", "1M")] }

/-- A waiting sample item. -/
def sampleWaiting : QueueItem :=
  { id := "d", url := "x", title := "q", thumbnail := "", duration := 6,
    status := QueueItemStatus.waiting, progress := 0, speed := "",
    eta := "", format_spec := "best", quality := "best", output_path := "p",
    output_file := "", error_message := "", added_time := "now", options := [] }

/-- A pending sample item. -/
def samplePending : QueueItem :=
  { id := "e", url := "y", title := "p", thumbnail := "", duration := 7,
    status := QueueItemStatus.pending, progress := 0, speed := "",
    eta := "", format_spec := "best", quality := "best", output_path := "p",
    output_file := "", error_message := "", added_time := "now", options := [] }

/-- C1: loading a persisted queue file resets every item stored as
`DOWNLOADING` or `PROCESSING` to `PENDING` with progress `0.0` and returns
every item in any other status unchanged (in particular its status and
progress). -/
theorem load_resets_in_progress_items (file : List ItemDict) (items : List QueueItem)
    (h : parseAll file = some items) (i : Nat) (it : QueueItem)
    (hi : items[i]? = some it) :
    ((it.status = QueueItemStatus.downloading ∨ it.status = QueueItemStatus.processing) →
      (loadQueue file)[i]? =
        some { it with status := QueueItemStatus.pending, progress := 0 }) ∧
    (it.status ≠ QueueItemStatus.downloading → it.status ≠ QueueItemStatus.processing →
      (loadQueue file)[i]? = some it) := by
  unfold loadQueue
  rw [h]
  refine ⟨fun hst => ?_, fun h1 h2 => ?_⟩
  · simp only [List.getElem?_map, hi, Option.map_some]
    simp [resetInProgress, hst]
  · simp only [List.getElem?_map, hi, Option.map_some]
    simp [resetInProgress, h1, h2]

/-- C1 witness at a concrete two-item file. -/
theorem load_resets_in_progress_items_witness :
    (loadQueue (saveQueue [sampleDl, sampleDone]))[0]? =
      some { sampleDl with status := QueueItemStatus.pending, progress := 0 } :=
  (load_resets_in_progress_items (saveQueue [sampleDl, sampleDone]) [sampleDl, sampleDone]
    (parseAll_saveQueue _) 0 sampleDl rfl).1 (Or.inl rfl)

/-- C2: saving a queue and reloading it yields, item for item and field for
field, the pre-save snapshot with any `DOWNLOADING`/`PROCESSING` status
normalized to `PENDING` with progress 0; order, ids and all other fields are
preserved. -/
theorem save_load_round_trip (q : List QueueItem) :
    (loadQueue (saveQueue q)).length = q.length ∧
    ∀ (i : Nat) (it : QueueItem), q[i]? = some it →
      (loadQueue (saveQueue q))[i]? =
        some (if it.status = QueueItemStatus.downloading ∨
                 it.status = QueueItemStatus.processing
              then { it with status := QueueItemStatus.pending, progress := 0 }
              else it) := by
  unfold loadQueue
  rw [parseAll_saveQueue]
  refine ⟨by simp, fun i it hi => ?_⟩
  simp only [List.getElem?_map, hi, Option.map_some]
  rfl

/-- C2 witness at a concrete one-item queue: a `FAILED` item round-trips
unchanged. -/
theorem save_load_round_trip_witness :
    (loadQueue (saveQueue [sampleFailed]))[0]? = some sampleFailed := by
  have h := (save_load_round_trip [sampleFailed]).2 0 sampleFailed rfl
  rwa [if_neg (by decide)] at h

/-! ## Claims C3, C4: concrete progress lines -/

lemma mk_toList (s : String) : String.mk s.toList = s := rfl

/-- C3: the standard in-flight progress line parses, from any prior
accumulator, to percent 45.5, total `125.32MiB` (tilde stripped), speed
`2.35MiB/s`, eta `00:25` and status `downloading`. -/
theorem parse_progress_downloading_line (p : DownloadProgress) :
    parseProgressLine "[download] 45.5% of ~125.32MiB at 2.35MiB/s ETA 00:25" p =
      { p with
          percent := 45.5
          total := "125.32MiB"
          speed := "2.35MiB/s"
          eta := "00:25"
          status := "downloading" } := by
  have h : searchAux matchDl1At
      "[download] 45.5% of ~125.32MiB at 2.35MiB/s ETA 00:25".toList =
      some ("45.5".toList, "125.32MiB".toList, "2.35MiB/s".toList, "00:25".toList) := by
    decide
  have hq : parseFloatDec "45.5".toList = 45.5 := by
    have hs : decSplit "45.5".toList = (45, 5, 1) := by decide
    unfold parseFloatDec
    rw [hs]
    norm_num
  simp only [parseProgressLine, h, hq, mk_toList]

/-- C4: the completed-download line (no speed/ETA) does not match the
in-flight rule and falls through, under first-match-wins ordering, to the
`100% of` rule: percent 100, total `125.32MiB`, status `processing`. -/
theorem parse_progress_complete_line (p : DownloadProgress) :
    searchAux matchDl1At "[download] 100% of 125.32MiB in 00:53".toList = none ∧
    parseProgressLine "[download] 100% of 125.32MiB in 00:53" p =
      { p with percent := 100, total := "125.32MiB", status := "processing" } := by
  have h1 : searchAux matchDl1At "[download] 100% of 125.32MiB in 00:53".toList = none := by
    decide
  have h2 : searchAux matchDestAt "[download] 100% of 125.32MiB in 00:53".toList = none := by
    decide
  have h3 : searchAux matchCompleteAt "[download] 100% of 125.32MiB in 00:53".toList =
      some "125.32MiB".toList := by decide
  exact ⟨h1, by simp only [parseProgressLine, h1, h2, h3, mk_toList]⟩

/-! ## Claims C5, C6: error buffering and failure messages -/

lemma processLines_go (lines : List String) (buf : List String) (pr : DownloadProgress) :
    (lines.foldl processLinesStep (buf, pr)).1 =
      buf ++ (lines.map pyStrip).filter (fun l => (l != "") && isErrorLine l) := by
  induction lines generalizing buf pr with
  | nil => simp
  | cons a rest ih =>
    simp only [List.foldl_cons, List.map_cons, List.filter_cons]
    by_cases h1 : pyStrip a = ""
    · simp [processLinesStep, h1, ih]
    · by_cases h2 : isErrorLine (pyStrip a) = true
      · simp [processLinesStep, h1, h2, ih]
      · simp [processLinesStep, h1, h2, ih]

/-- C5: on nonzero exit the reported failure message is the last up to 3
buffered error lines joined by newline (most recent last), or the generic
exit-code message when no error line was buffered; with exactly two buffered
error lines it is those two joined by a newline. -/
theorem nonzero_exit_reports_buffered_errors (lines : List String) (code : Int)
    (path : String) (hc : code ≠ 0) :
    (processLines lines).1 =
      (lines.map pyStrip).filter (fun l => (l != "") && isErrorLine l) ∧
    ((processLines lines).1 ≠ [] →
      runExit lines code path =
        (false, String.intercalate "\n"
          ((processLines lines).1.drop ((processLines lines).1.length - 3)))) ∧
    ((processLines lines).1 = [] →
      runExit lines code path =
        (false, "Download failed with exit code " ++ toString code)) ∧
    (∀ l1 l2, (processLines lines).1 = [l1, l2] →
      runExit lines code path = (false, l1 ++ "\n" ++ l2)) := by
  refine ⟨processLines_go lines [] _, fun hne => ?_, fun he => ?_, fun l1 l2 h2 => ?_⟩
  · simp [runExit, failureMessage, hc, hne]
  · simp [runExit, failureMessage, hc, he]
  · simp only [runExit, failureMessage, h2, hc, if_neg hc]
    simp [String.intercalate, String.intercalate.go]

/-- C5 witness: two `ERROR:` lines among the output and exit code 1. -/
theorem nonzero_exit_reports_buffered_errors_witness :
    runExit ["[download] Destination: a.mp4", "ERROR: first failure",
             "ERROR: second failure"] 1 "out" =
      (false, "ERROR: first failure" ++ "\n" ++ "ERROR: second failure") :=
  (nonzero_exit_reports_buffered_errors
      ["[download] Destination: a.mp4", "ERROR: first failure", "ERROR: second failure"]
      1 "out" (by decide)).2.2.2 "ERROR: first failure" "ERROR: second failure" (by decide)

/-- C6 counterexample: a line carrying only the lowercase `error:` marker is
matched by the (case-insensitive) buffer test, yet `_parse_progress_line`
leaves the accumulator's status unchanged, because its error rule tests the
case-sensitive `'ERROR:' in line` only. -/
theorem error_rule_case_counterexample :
    isErrorLine "error: unable to continue" = true ∧
    (parseProgressLine "error: unable to continue" { status := "downloading" }).status =
      "downloading" ∧
    (parseProgressLine "error: unable to continue" { status := "downloading" }).status ≠
      "error" := by
  refine ⟨by decide, by decide, by decide⟩

/-- C6 amended: a stripped output line containing the case-sensitive
`ERROR:` marker that matches none of the earlier rules sets status `error`
and error_message to the line with every `ERROR:` occurrence removed and
whitespace stripped; independently, every nonempty stripped line matching
the case-insensitive `error:` test is appended to the error buffer, and the
failure message uses only the buffer's last 3 entries. -/
theorem error_rule_amended (line : String) (p : DownloadProgress)
    (hm : hasSub "ERROR:".toList line.toList = true)
    (h1 : searchAux matchDl1At line.toList = none)
    (h2 : searchAux matchDestAt line.toList = none)
    (h3 : searchAux matchCompleteAt line.toList = none)
    (h4 : hasSub "[Merger]".toList line.toList = false)
    (h5 : hasSub "[ExtractAudio]".toList line.toList = false)
    (hstr : pyStrip line = line) :
    (parseProgressLine line p).status = "error" ∧
    (parseProgressLine line p).error_message =
      String.mk (stripL (replaceAllL "ERROR:".toList [] line.toList)) ∧
    isErrorLine line = true ∧
    (∀ buf pr, processLinesStep (buf, pr) line =
      (buf ++ [line], parseProgressLine line pr)) ∧
    (∀ buf (code : Int), buf ≠ [] →
      failureMessage buf code =
        String.intercalate "\n" (buf.drop (buf.length - 3))) := by
  have hne : line ≠ "" := by
    intro e
    rw [e] at hm
    exact absurd hm (by decide)
  have herr : isErrorLine line = true := by
    unfold isErrorLine
    rw [hm]
    simp
  refine ⟨?_, ?_, herr, fun buf pr => ?_, fun buf code hb => ?_⟩
  · simp only [parseProgressLine, h1, h2, h3, h4, h5, hm]
    simp
  · simp only [parseProgressLine, h1, h2, h3, h4, h5, hm]
    simp
  · simp [processLinesStep, hstr, hne, herr]
  · simp [failureMessage, hb]

/-- C6 amended witness at a concrete `ERROR:` line. -/
theorem error_rule_amended_witness :
    (parseProgressLine "ERROR: oops" {}).status = "error" :=
  (error_rule_amended "ERROR: oops" {} (by decide) (by decide) (by decide) (by decide)
    (by decide) (by decide) (by decide)).1

/-! ## `updateFirst` lemmas -/

lemma updateFirst_getElem? (q : List QueueItem) (item_id : String) (f : QueueItem → QueueItem)
    (hnd : (q.map QueueItem.id).Nodup) (i : Nat) :
    (updateFirst q item_id f)[i]? =
      q[i]?.map (fun x => if x.id = item_id then f x else x) := by
  induction q generalizing i with
  | nil => simp [updateFirst]
  | cons a rest ih =>
    simp only [List.map_cons, List.nodup_cons] at hnd
    by_cases ha : a.id = item_id
    · simp only [updateFirst, if_pos ha]
      cases i with
      | zero => simp [ha]
      | succ j =>
        simp only [List.getElem?_cons_succ]
        cases hj : rest[j]? with
        | none => simp
        | some x =>
          have hx : x ∈ rest := List.getElem?_mem hj
          have hxne : x.id ≠ item_id := by
            intro e
            refine hnd.1 ?_
            rw [ha, ← e]
            exact List.mem_map_of_mem QueueItem.id hx
          simp [hxne]
    · simp only [updateFirst, if_neg ha]
      cases i with
      | zero => simp [ha]
      | succ j => simp only [List.getElem?_cons_succ]; exact ih hnd.2 j

lemma updateFirst_mem_of_nodup {q : List QueueItem} {item_id : String}
    {f : QueueItem → QueueItem} (hnd : (q.map QueueItem.id).Nodup) {it' : QueueItem}
    (h : it' ∈ updateFirst q item_id f) :
    (it' ∈ q ∧ it'.id ≠ item_id) ∨
    (∃ it, it ∈ q ∧ it.id = item_id ∧ it' = f it) := by
  induction q with
  | nil => cases h
  | cons a rest ih =>
    simp only [List.map_cons, List.nodup_cons] at hnd
    by_cases ha : a.id = item_id
    · rw [updateFirst, if_pos ha] at h
      rcases List.mem_cons.mp h with h' | h'
      · exact Or.inr ⟨a, List.mem_cons_self a rest, ha, h'⟩
      · refine Or.inl ⟨List.mem_cons_of_mem a h', fun e => ?_⟩
        refine hnd.1 ?_
        rw [ha, ← e]
        exact List.mem_map_of_mem QueueItem.id h'
    · rw [updateFirst, if_neg ha] at h
      rcases List.mem_cons.mp h with h' | h'
      · exact Or.inl ⟨h' ▸ List.mem_cons_self a rest, h' ▸ ha⟩
      · rcases ih hnd.2 h' with ⟨hm, hne⟩ | ⟨it, hm, he, hf⟩
        · exact Or.inl ⟨List.mem_cons_of_mem a hm, hne⟩
        · exact Or.inr ⟨it, List.mem_cons_of_mem a hm, he, hf⟩

lemma updateFirst_map_id (q : List QueueItem) (item_id : String)
    (f : QueueItem → QueueItem) (hf : ∀ x, QueueItem.id (f x) = QueueItem.id x) :
    (updateFirst q item_id f).map QueueItem.id = q.map QueueItem.id := by
  induction q with
  | nil => rfl
  | cons a rest ih =>
    by_cases ha : a.id = item_id
    · simp [updateFirst, if_pos ha, hf]
    · simp [updateFirst, if_neg ha, ih]

lemma processLoop_no_pending (fuel : Nat) (s : MState)
    (h : getNextPending s.queue = none) : processLoop fuel s = s := by
  cases fuel with
  | zero => rfl
  | succ n => simp [processLoop, h]

/-! ## Claim C10: WAITING items are never admitted but count as pending -/

/-- C10: `get_next_pending` only ever returns a `PENDING` item (never a
`WAITING` one) while `get_pending_items` includes both `PENDING` and
`WAITING`; a queue whose not-yet-started items are all `WAITING` yields no
next-pending item yet a non-empty pending list, so the admission loop starts
nothing and the all-finished check never fires (the manager stays running). -/
theorem waiting_items_not_admitted (q : List QueueItem) :
    (∀ it : QueueItem, getNextPending q = some it → it.status = QueueItemStatus.pending) ∧
    (∀ it : QueueItem, it ∈ getPendingItems q ↔
      it ∈ q ∧ (it.status = QueueItemStatus.pending ∨
                it.status = QueueItemStatus.waiting)) ∧
    ((∃ it ∈ q, it.status = QueueItemStatus.waiting) →
      (∀ it ∈ q, it.status ≠ QueueItemStatus.pending) →
      getNextPending q = none ∧ getPendingItems q ≠ [] ∧
      ∀ maxc : Nat, processQueue ⟨q, [], true, maxc⟩ = ⟨q, [], true, maxc⟩) := by
  refine ⟨fun it h => ?_, fun it => ?_, fun ⟨w, hw, hws⟩ hnp => ?_⟩
  · have := List.find?_some h
    simpa using this
  · simp [getPendingItems, List.mem_filter]
  · have hnone : getNextPending q = none := by
      apply List.find?_eq_none.mpr
      intro x hx
      simpa using hnp x hx
    have hmem : w ∈ getPendingItems q := by
      simp [getPendingItems, List.mem_filter, hw, hws]
    have hne : getPendingItems q ≠ [] := List.ne_nil_of_mem hmem
    refine ⟨hnone, hne, fun maxc => ?_⟩
    have hloop : processLoop q.length ⟨q, [], true, maxc⟩ = ⟨q, [], true, maxc⟩ :=
      processLoop_no_pending _ _ hnone
    simp [processQueue, hloop, hne]

/-- C10 witness: one `WAITING` item. -/
theorem waiting_items_not_admitted_witness :
    getNextPending [sampleWaiting] = none ∧ getPendingItems [sampleWaiting] ≠ [] :=
  have h := (waiting_items_not_admitted [sampleWaiting]).2.2
    ⟨sampleWaiting, by decide, by decide⟩ (by decide)
  ⟨h.1, h.2.1⟩

/-! ## Claim C8: retry is a guarded, minimal reset -/

/-- C8: `retry_failed` is a no-op unless the id denotes an existing item
with status `FAILED`; when it applies (manager not running, so no admission
pass follows), it rewrites exactly that item to `PENDING` with progress 0,
leaving `error_message` and every other field — and every other item, the
workers and the flags — unchanged. -/
theorem retry_failed_frame (s : MState) (item_id : String)
    (hnd : (s.queue.map QueueItem.id).Nodup) :
    (getItem s.queue item_id = none → retryFailed s item_id = s) ∧
    (∀ it, getItem s.queue item_id = some it → it.status ≠ QueueItemStatus.failed →
      retryFailed s item_id = s) ∧
    (∀ it, getItem s.queue item_id = some it → it.status = QueueItemStatus.failed →
      s.isRunning = false →
      (retryFailed s item_id).workers = s.workers ∧
      (retryFailed s item_id).isRunning = s.isRunning ∧
      (retryFailed s item_id).maxConcurrent = s.maxConcurrent ∧
      ∀ (i : Nat) (x : QueueItem), s.queue[i]? = some x →
        (retryFailed s item_id).queue[i]? =
          some (if x.id = item_id
                then { x with status := QueueItemStatus.pending, progress := 0 }
                else x)) := by
  refine ⟨fun h => ?_, fun it h hst => ?_, fun it h hst hrun => ?_⟩
  · simp [retryFailed, h]
  · simp [retryFailed, h, hst]
  · have hr : retryFailed s item_id =
        { s with
            queue :=
              updateFirst s.queue item_id
                (fun x => { x with status := QueueItemStatus.pending, progress := 0 }) } := by
      simp [retryFailed, h, hst, hrun]
    refine ⟨by rw [hr], by rw [hr], by rw [hr], fun i x hx => ?_⟩
    rw [hr]
    show (updateFirst s.queue item_id _)[i]? = _
    rw [updateFirst_getElem? _ _ _ hnd i, hx]
    rfl

/-- C8 witness: retrying a concrete failed item resets exactly status and
progress. -/
theorem retry_failed_frame_witness :
    (retryFailed ⟨[sampleFailed], [], false, 2⟩ "c").queue[0]? =
      some { sampleFailed with status := QueueItemStatus.pending, progress := 0 } := by
  have h := ((retry_failed_frame ⟨[sampleFailed], [], false, 2⟩ "c" (by decide)).2.2
    sampleFailed (by decide) (by decide) rfl).2.2.2 0 sampleFailed rfl
  rwa [if_pos (by decide : sampleFailed.id = "c")] at h

/-! ## Claim C7: the concurrency limit is an invariant -/

/-- An item in execution state (`DOWNLOADING` or `PROCESSING`). -/
def isActiveItem (it : QueueItem) : Bool :=
  it.status = QueueItemStatus.downloading ∨ it.status = QueueItemStatus.processing

/-- Number of items in execution state. -/
def countActive (q : List QueueItem) : Nat :=
  (q.filter isActiveItem).length

/-- The inductive invariant: the worker map is bounded by the limit, queue
ids are unique, and every item in execution state has a registered worker. -/
def ManagerInv (s : MState) : Prop :=
  s.workers.length ≤ s.maxConcurrent ∧
  (s.queue.map QueueItem.id).Nodup ∧
  ∀ it ∈ s.queue,
    (it.status = QueueItemStatus.downloading ∨ it.status = QueueItemStatus.processing) →
    it.id ∈ s.workers

lemma perm_insertIdx_cons (a : QueueItem) :
    ∀ (n : Nat) (l : List QueueItem), n ≤ l.length → (l.insertIdx n a).Perm (a :: l)
  | 0, l, _ => by simp [List.insertIdx_zero]
  | n + 1, [], h => by simp at h
  | n + 1, b :: l, h => by
    rw [List.insertIdx_succ_cons]
    have ih := perm_insertIdx_cons a n l (by simpa using h)
    exact (ih.cons b).trans (List.Perm.swap a b l)

lemma perm_cons_eraseIdx :
    ∀ (l : List QueueItem) (i : Nat) (a : QueueItem), l[i]? = some a →
      l.Perm (a :: l.eraseIdx i)
  | [], i, a, h => by simp at h
  | b :: l, 0, a, h => by
    simp only [List.getElem?_cons_zero, Option.some.injEq] at h
    subst h
    simp [List.eraseIdx]
  | b :: l, i + 1, a, h => by
    simp only [List.getElem?_cons_succ] at h
    have ih := perm_cons_eraseIdx l i a h
    exact (ih.cons b).trans (List.Perm.swap a b (l.eraseIdx i))

lemma moveItemQ_perm (q : List QueueItem) (item_id : String) (d : Int) :
    (moveItemQ q item_id d).Perm q := by
  unfold moveItemQ
  cases hf : q.findIdx? (fun it => it.id == item_id) with
  | none => exact List.Perm.refl q
  | some i =>
    dsimp only
    by_cases hni : (max 0 (min ((q.length : Int) - 1) ((i : Int) + d))).toNat = i
    · rw [if_pos hni]
    · rw [if_neg hni]
      cases hq : q[i]? with
      | none => exact List.Perm.refl q
      | some it =>
        have h1 : i < q.length := by
          by_contra hlt
          rw [List.getElem?_eq_none (by omega)] at hq
          cases hq
        have hle : (max 0 (min ((q.length : Int) - 1) ((i : Int) + d))).toNat ≤
            (q.eraseIdx i).length := by
          rw [List.length_eraseIdx_of_lt h1]
          have hb : max 0 (min ((q.length : Int) - 1) ((i : Int) + d)) ≤
              (q.length : Int) - 1 :=
            max_le (by omega) (min_le_left _ _)
          omega
        exact (perm_insertIdx_cons it _ _ hle).trans (perm_cons_eraseIdx q i it hq).symm

lemma countActive_le_workers (q : List QueueItem) (ws : List String)
    (hnd : (q.map QueueItem.id).Nodup)
    (hmem : ∀ it ∈ q,
      (it.status = QueueItemStatus.downloading ∨ it.status = QueueItemStatus.processing) →
      it.id ∈ ws) :
    countActive q ≤ ws.length := by
  have hsub : List.Sublist ((q.filter isActiveItem).map QueueItem.id)
      (q.map QueueItem.id) :=
    List.Sublist.map QueueItem.id (List.filter_sublist q)
  have hlnd : ((q.filter isActiveItem).map QueueItem.id).Nodup :=
    List.Nodup.sublist hsub hnd
  have hsubset : ∀ x ∈ (q.filter isActiveItem).map QueueItem.id, x ∈ ws := by
    intro x hx
    rcases List.mem_map.mp hx with ⟨it, hit, rfl⟩
    have hfe := List.mem_filter.mp hit
    exact hmem it hfe.1 (by simpa [isActiveItem] using hfe.2)
  have hlen : ((q.filter isActiveItem).map QueueItem.id).length ≤ ws.length :=
    calc ((q.filter isActiveItem).map QueueItem.id).length
        = ((q.filter isActiveItem).map QueueItem.id).toFinset.card :=
          (List.toFinset_card_of_nodup hlnd).symm
      _ ≤ ws.toFinset.card :=
          Finset.card_le_card (fun x hx =>
            List.mem_toFinset.mpr (hsubset x (List.mem_toFinset.mp hx)))
      _ ≤ ws.length := ws.toFinset_card_le
  simpa [countActive] using hlen

lemma inv_startDownload (s : MState) (item : QueueItem) (h : ManagerInv s)
    (hlt : s.workers.length < s.maxConcurrent) : ManagerInv (startDownload s item) := by
  unfold startDownload
  by_cases hc : s.workers.contains item.id
  · rw [if_pos hc]
    exact h
  · rw [if_neg hc]
    refine ⟨by simp [List.length_append]; omega, ?_, ?_⟩
    · exact (updateFirst_map_id s.queue item.id
        (fun it => { it with status := QueueItemStatus.downloading })
        (fun x => rfl)).symm ▸ h.2.1
    · intro it' hmem hst
      rcases updateFirst_mem_of_nodup h.2.1 hmem with ⟨hq, _⟩ | ⟨it0, hq, he, hf⟩
      · exact List.mem_append.mpr (Or.inl (h.2.2 it' hq hst))
      · refine List.mem_append.mpr (Or.inr ?_)
        rw [hf]
        simp [he]

lemma inv_processLoop (fuel : Nat) (s : MState) (h : ManagerInv s) :
    ManagerInv (processLoop fuel s) := by
  induction fuel generalizing s with
  | zero => exact h
  | succ n ih =>
    rw [processLoop]
    by_cases hlt : s.workers.length < s.maxConcurrent
    · rw [if_pos hlt]
      cases hnp : getNextPending s.queue with
      | none => exact h
      | some item => exact ih _ (inv_startDownload s item h hlt)
    · rw [if_neg hlt]
      exact h

lemma inv_processQueue (s : MState) (h : ManagerInv s) : ManagerInv (processQueue s) := by
  unfold processQueue
  by_cases hrun : s.isRunning = false
  · rw [if_pos hrun]
    exact h
  · rw [if_neg hrun]
    have h' := inv_processLoop s.queue.length s h
    by_cases hall : (processLoop s.queue.length s).workers.length = 0 ∧
        getPendingItems (processLoop s.queue.length s).queue = []
    · simp only [if_pos hall]
      exact ⟨h'.1, h'.2.1, h'.2.2⟩
    · simp only [if_neg hall]
      exact h'

lemma inv_updateFirst_inactive (s : MState) (item_id : String) (f : QueueItem → QueueItem)
    (h : ManagerInv s) (hid : ∀ x, QueueItem.id (f x) = QueueItem.id x)
    (hst : ∀ x, (f x).status ≠ QueueItemStatus.downloading ∧
                (f x).status ≠ QueueItemStatus.processing) :
    ManagerInv { s with queue := updateFirst s.queue item_id f } := by
  refine ⟨h.1, ?_, ?_⟩
  · exact (updateFirst_map_id s.queue item_id f hid).symm ▸ h.2.1
  · intro it' hmem hact
    rcases updateFirst_mem_of_nodup h.2.1 hmem with ⟨hq, _⟩ | ⟨it0, _, _, hf⟩
    · exact h.2.2 it' hq hact
    · rcases hact with ha | ha
      · exact absurd ha (hf ▸ (hst it0).1)
      · exact absurd ha (hf ▸ (hst it0).2)

lemma inv_step {s s' : MState} (h : ManagerInv s) (hs : Step s s') : ManagerInv s' := by
  cases hs with
  | start =>
    unfold startQueue
    by_cases hr : s.isRunning
    · rw [if_pos hr]
      exact h
    · rw [if_neg hr]
      exact inv_processQueue _ ⟨h.1, h.2.1, h.2.2⟩
  | stop => exact ⟨h.1, h.2.1, h.2.2⟩
  | pause => exact ⟨h.1, h.2.1, h.2.2⟩
  | progress item_id p hw =>
    refine ⟨h.1, ?_, ?_⟩
    · exact (updateFirst_map_id s.queue item_id
        (fun it =>
          { it with
              status := if p.status = "processing" then QueueItemStatus.processing
                        else QueueItemStatus.downloading
              progress := p.percent
              speed := p.speed
              eta := p.eta })
        (fun x => rfl)).symm ▸ h.2.1
    · intro it' hmem hst
      rcases updateFirst_mem_of_nodup h.2.1 hmem with ⟨hq, _⟩ | ⟨it0, hq, he, hf⟩
      · exact h.2.2 it' hq hst
      · rw [hf]
        show it0.id ∈ s.workers
        rw [he]
        exact hw
  | finished item_id success message hw =>
    have key : ∀ (f : QueueItem → QueueItem),
        (∀ x, QueueItem.id (f x) = QueueItem.id x) →
        (∀ x, (f x).status ≠ QueueItemStatus.downloading ∧
              (f x).status ≠ QueueItemStatus.processing) →
        ManagerInv
          { s with
              workers := s.workers.filter (fun w => w != item_id)
              queue := updateFirst s.queue item_id f } := by
      intro f hid hstf
      refine ⟨le_trans (List.length_filter_le _ _) h.1, ?_, ?_⟩
      · exact (updateFirst_map_id s.queue item_id f hid).symm ▸ h.2.1
      · intro it' hmem hact
        rcases updateFirst_mem_of_nodup h.2.1 hmem with ⟨hq, hne⟩ | ⟨it0, _, _, hf⟩
        · refine List.mem_filter.mpr ⟨h.2.2 it' hq hact, ?_⟩
          simpa [bne_iff_ne] using hne
        · rcases hact with ha | ha
          · exact absurd ha (hf ▸ (hstf it0).1)
          · exact absurd ha (hf ▸ (hstf it0).2)
    cases success with
    | true =>
      exact inv_processQueue _ (key
        (fun it =>
          { it with
              status := QueueItemStatus.completed
              progress := 100
              output_file := message })
        (fun x => rfl) (fun x => by constructor <;> simp))
    | false =>
      exact inv_processQueue _ (key
        (fun it =>
          { it with
              status := QueueItemStatus.failed
              error_message := message })
        (fun x => rfl) (fun x => by constructor <;> simp))
  | cancel item_id =>
    unfold cancelDownload
    by_cases hc : s.workers.contains item_id
    · rw [if_pos hc]
      exact inv_updateFirst_inactive s item_id _ h (fun x => rfl)
        (fun x => by constructor <;> simp)
    · rw [if_neg hc]
      exact h
  | retry item_id =>
    cases hg : getItem s.queue item_id with
    | none => simpa [retryFailed, hg] using h
    | some it =>
      by_cases hst : it.status = QueueItemStatus.failed
      · have h1 := inv_updateFirst_inactive s item_id
          (fun x => { x with status := QueueItemStatus.pending, progress := 0 }) h
          (fun x => rfl) (fun x => by constructor <;> simp)
        by_cases hr : s.isRunning = true
        · simpa [retryFailed, hg, hst, hr] using inv_processQueue _ h1
        · simpa [retryFailed, hg, hst, hr] using h1
      · simpa [retryFailed, hg, hst] using h
  | add item hpend hfresh =>
    refine ⟨h.1, ?_, ?_⟩
    · show ((s.queue ++ [item]).map QueueItem.id).Nodup
      rw [List.map_append]
      refine h.2.1.append (by simp) ?_
      intro x hx hx1
      rcases List.mem_map.mp hx with ⟨it, hit, rfl⟩
      simp only [List.map_cons, List.map_nil, List.mem_cons, List.not_mem_nil,
        or_false] at hx1
      exact hfresh it hit hx1
    · intro it' hmem hst
      rcases List.mem_append.mp hmem with hq | hq
      · exact h.2.2 it' hq hst
      · simp only [List.mem_cons, List.not_mem_nil, or_false] at hq
        rw [hq] at hst
        rw [hpend] at hst
        rcases hst with hb | hb <;> cases hb
  | remove item_id =>
    refine ⟨h.1, ?_, ?_⟩
    · exact List.Nodup.sublist
        (List.Sublist.map QueueItem.id (List.filter_sublist s.queue)) h.2.1
    · intro it' hmem hst
      exact h.2.2 it' (List.mem_of_mem_filter hmem) hst
  | clearDone =>
    refine ⟨h.1, ?_, ?_⟩
    · exact List.Nodup.sublist
        (List.Sublist.map QueueItem.id (List.filter_sublist s.queue)) h.2.1
    · intro it' hmem hst
      exact h.2.2 it' (List.mem_of_mem_filter hmem) hst
  | clearEverything =>
    refine ⟨h.1, by simp [clearAll], ?_⟩
    intro it' hmem hst
    simp [clearAll] at hmem
  | move item_id d =>
    have hperm := moveItemQ_perm s.queue item_id d
    refine ⟨h.1, ?_, ?_⟩
    · exact ((hperm.map QueueItem.id).nodup_iff).mpr h.2.1
    · intro it' hmem hst
      exact h.2.2 it' (hperm.subset hmem) hst

/-- C7: in every state reachable by orchestrator operations (with
`download_single` excluded from the step relation), both the number of items
in execution state and the number of registered workers stay within the
concurrency limit. -/
theorem concurrency_limit_invariant (s : MState) (h : Reachable s) :
    countActive s.queue ≤ s.maxConcurrent ∧ s.workers.length ≤ s.maxConcurrent := by
  have hinv : ManagerInv s := by
    induction h with
    | init maxc q0 hload hids =>
      refine ⟨Nat.zero_le _, hids, fun it hm hst => ?_⟩
      rcases hst with h1 | h1
      · exact absurd h1 (hload it hm).1
      · exact absurd h1 (hload it hm).2
    | step hreach hstep ih => exact inv_step ih hstep
  exact ⟨le_trans (countActive_le_workers _ _ hinv.2.1 hinv.2.2) hinv.1, hinv.1⟩

/-- C7 witness at a concrete freshly loaded state. -/
theorem concurrency_limit_invariant_witness :
    countActive [samplePending] ≤ 2 ∧ ([] : List String).length ≤ 2 :=
  concurrency_limit_invariant ⟨[samplePending], [], false, 2⟩
    (Reachable.init 2 [samplePending] (by decide) (by decide))

/-! ## Claim C9: outcome of a cancelled active job -/

/-- C9 (code bug): after `cancel_download` marks an active item `CANCELLED`,
the worker's completion callback arrives with `success=False` (the wrapper
emits `finished(False, "Cancelled")` on cancellation) and `_on_finished`'s
failure branch overwrites the status with `FAILED`, error message
`"Cancelled"` — the final status is `FAILED`, not `CANCELLED`. -/
theorem cancelled_job_marked_failed :
    ((getItem (cancelDownload ⟨[sampleDl], ["a"], true, 2⟩ "a").queue "a").map
      QueueItem.status = some QueueItemStatus.cancelled) ∧
    ((onFinished (cancelDownload ⟨[sampleDl], ["a"], true, 2⟩ "a") "a" false
        "Cancelled").queue.map (fun it => (it.id, it.status, it.error_message)) =
      [("a", QueueItemStatus.failed, "Cancelled")]) := by
  refine ⟨by decide, by decide⟩

example :
    loadQueue [{ id := "a", url := "u", title := "t", thumbnail := "", duration := 3,
                 statusVal := "downloading", progress := 55, speed := "", eta := "",
                 format_spec := "best", quality := "best", output_path := "p",
                 output_file := "", error_message := "", added_time := "now",
                 options := [] }] =
      [{ id := "a", url := "u", title := "t", thumbnail := "", duration := 3,
         status := .pending, progress := 0, speed := "", eta := "",
         format_spec := "best", quality := "best", output_path := "p",
         output_file := "", error_message := "", added_time := "now",
         options := [] }] := by decide
